import Mathlib

/-!
# TacticalCorrelator — Evidence Ingestion & Correlation Engine, shallow embedding

This file embeds the core of `tactical_correlator` (the Python sources under
`src/tactical_correlator/`) in Lean 4 and proves/refutes the frozen claims about
its specification.

Modelling conventions:
* Python `float` arithmetic is modelled over `ℚ` (exact rationals).
* `datetime` values are modelled as seconds (`Nat`); `pandas`' `floor('5min')`
  is truncation to a multiple of 300 seconds.
* A Python dict field that may be absent or bound to `None` is modelled as
  `Option (Option α)`: `none` = key absent, `some none` = key bound to `None`,
  `some (some v)` = key bound to `v`.  After `_normalize_event` strips `None`
  values, a field is `Option α`: `none` = key absent.
* `hashlib.md5(json.dumps(...)).hexdigest()` in `hash_event` is modelled by the
  canonical pre-hash string itself (the digest is a deterministic function of
  that string, and only equality of hashes is ever relevant).
* Exceptions are modelled with `Except String`; a caught-and-logged exception
  becomes the handler's return value, a re-raised one stays `.error`.
-/

set_option allowUnsafeReducibility true in
attribute [semireducible] Rat.add Rat.mul Rat.inv Rat.div Rat.sub Rat.ofScientific

namespace TacticalCorrelator

set_option maxRecDepth 10000

/-- A raw timestamp value as found in a parser record, classified by how
`normalize_timestamp` (utils/data_utils.py lines 10-46) treats it:
a `datetime` object (`dt`), a string matching one of the ten `strptime`
formats (`strOk`, carrying the raw text and the denoted time), a string
matching none of them (`strBad`), an int/float accepted by
`datetime.fromtimestamp` (`numOk`), one rejected by it (`numBad`),
Python `None` (`pynone`), or any other value (`other`, carrying its `str()`
representation). -/
inductive RawTs where
  | dt (t : Nat)
  | strOk (s : String) (t : Nat)
  | strBad (s : String)
  | numOk (t : Nat)
  | numBad (n : Int)
  | pynone
  | other (repr : String)
deriving DecidableEq, Repr

/-- A raw parser record (`Dict[str, Any]`) restricted to the keys the
correlator core reads.  `Option (Option String)`: `none` = key absent,
`some none` = key explicitly bound to `None`, `some (some v)` = value `v`. -/
structure RawEvent where
  timestamp : Option RawTs := none
  source : Option (Option String) := none
  event_id : Option (Option String) := none
  description : Option (Option String) := none
  hostname : Option (Option String) := none
  username : Option (Option String) := none
  process_name : Option (Option String) := none
  ip_address : Option (Option String) := none
deriving DecidableEq, Repr

/-- `normalize_timestamp` (utils/data_utils.py lines 10-46): a `datetime`
passes through; a string is tried against the format list (success carries
the parsed time); an int/float is tried with `datetime.fromtimestamp`;
everything else (including `None`, i.e. an absent or `None`-bound key)
yields `None`. -/
def normalize_timestamp : Option RawTs → Option Nat
  | some (.dt t) => some t
  | some (.strOk _ t) => some t
  | some (.strBad _) => none
  | some (.numOk t) => some t
  | some (.numBad _) => none
  | some .pynone => none
  | none => none
  | some (.other _) => none

/-- `str()` of a raw timestamp value, as used by
`'timestamp': str(event.get('timestamp', ''))` in `hash_event`
(an absent key contributes `str('') = ""`). -/
def strOfRawTsField : Option RawTs → String
  | none => ""
  | some (.dt t) => "datetime(" ++ toString t ++ ")"
  | some (.strOk s _) => s
  | some (.strBad s) => s
  | some (.numOk t) => toString t
  | some (.numBad n) => toString n
  | some .pynone => "None"
  | some (.other r) => r

/-- JSON encoding of one `event.get(key, '')` field in `hash_event`:
an absent key serializes as the empty string, a `None`-bound key as `null`,
a string value as itself. -/
def jsonField : Option (Option String) → String
  | none => "str:"
  | some none => "null"
  | some (some s) => "str:" ++ s

/-- `hash_event` (utils/data_utils.py lines 48-63): the dedup hash is the MD5
of `json.dumps` of the seven listed fields with sorted keys.  We model the
hash as the canonical pre-digest encoding (keys in sorted order:
description, hostname, ip_address, process_name, source, timestamp,
username); the MD5 digest is a deterministic function of it. -/
def hash_event (e : RawEvent) : String :=
  String.intercalate "|"
    [ "description=" ++ jsonField e.description
    , "hostname=" ++ jsonField e.hostname
    , "ip_address=" ++ jsonField e.ip_address
    , "process_name=" ++ jsonField e.process_name
    , "source=" ++ jsonField e.source
    , "timestamp=str:" ++ strOfRawTsField e.timestamp
    , "username=" ++ jsonField e.username ]

/-- A normalized event, i.e. the dict built by
`TacticalCorrelator._normalize_event` (core/correlator.py lines 228-244)
after the final `None`-stripping comprehension: each optional field is
`none` exactly when the key is absent from the dict.  `source_type` is the
key added later by `_correlate_events` (line 254); it is `none` until then. -/
structure Event where
  timestamp : Option Nat := none
  source : Option String := none
  event_id : Option String := none
  description : Option String := none
  hostname : Option String := none
  username : Option String := none
  process_name : Option String := none
  ip_address : Option String := none
  source_type : Option String := none
  raw_data : RawEvent
  hash : String
deriving DecidableEq, Repr

/-- `event.get(key)` for a doubly-optional raw field: absent and `None`-bound
both read back as `None`. -/
def pyGet (v : Option (Option String)) : Option String := v.join

/-- `event.get(key, default)`: the default applies only when the key is
absent; a key bound to `None` reads back as `None`. -/
def pyGetD (v : Option (Option String)) (d : String) : Option String :=
  match v with
  | none => some d
  | some w => w

/-- `TacticalCorrelator._normalize_event` (core/correlator.py lines 228-244):
builds the normalized dict (`source` defaulting to `'unknown'`,
`description` to `''`, timestamp through `normalize_timestamp`, `raw_data`
the raw record itself, `hash` from `hash_event`) and then strips every key
whose value is `None`. -/
def normalize_event (e : RawEvent) : Event :=
  { timestamp := normalize_timestamp e.timestamp
    source := pyGetD e.source "unknown"
    event_id := pyGet e.event_id
    description := pyGetD e.description ""
    hostname := pyGet e.hostname
    username := pyGet e.username
    process_name := pyGet e.process_name
    ip_address := pyGet e.ip_address
    source_type := none
    raw_data := e
    hash := hash_event e }

/-! ## Ingestion: parser adapters, evidence cache, coordinator -/

/-- A parser adapter (`BaseParser.parse_async`): given a file path it either
returns a list of raw records or raises (modelled as `Except.error` with the
exception message). -/
structure Parser where
  parse : String → Except String (List RawEvent)

/-- The cache key computed at core/correlator.py line 206:
`cache_key = f"{file_path}_{hash(file_path)}"`.  Since `hash(file_path)` is a
deterministic function of the path within one process, the whole key is a
function of the path alone (the adapter plays no part in it); we model it by
the path itself. -/
def cacheKey (filePath : String) : String := filePath

/-- `self._parsed_cache`: a dict from cache key to the cached normalized
event list, modelled as an association list. -/
abbrev Cache := List (String × List Event)

/-- `TacticalCorrelator._parse_single_file` (core/correlator.py lines
202-226): on a cache hit, return the cached events; otherwise invoke the
adapter, normalize each raw record, store the result under the cache key and
return it.  Any exception is caught, logged, and turned into an empty event
list (with no cache write, since the write sits after the adapter call inside
the same `try`). -/
def parse_single_file (cache : Cache) (parser : Parser) (filePath : String) :
    Cache × List Event :=
  match cache.lookup (cacheKey filePath) with
  | some events => (cache, events)
  | none =>
    match parser.parse filePath with
    | .error _ => (cache, [])
    | .ok raws =>
      let normalized := raws.map normalize_event
      ((cacheKey filePath, normalized) :: cache, normalized)

/-- One source type of `TacticalCorrelator._parse_evidence`: fold
`_parse_single_file` over the file paths (asyncio.gather returns results in
task order), concatenating the per-file event lists. -/
def parseFiles (cache : Cache) (parser : Parser) :
    List String → Cache × List Event
  | [] => (cache, [])
  | p :: ps =>
    let (c1, evs) := parse_single_file cache parser p
    let (c2, rest) := parseFiles c1 parser ps
    (c2, evs ++ rest)

/-- `TacticalCorrelator._parse_evidence` (core/correlator.py lines 173-200):
for each source type with a non-empty path list, gather the per-file results
(a source type without a registered parser schedules no tasks and keeps its
empty list).  Exceptions never reach the `isinstance(result, Exception)`
branch because `_parse_single_file` catches everything, and no error record
of any kind is placed in the returned mapping. -/
def parse_evidence (parsers : List (String × Parser)) :
    List (String × List String) → Cache → Cache × List (String × List Event)
  | [], cache => (cache, [])
  | (st, paths) :: rest, cache =>
    if paths = [] then parse_evidence parsers rest cache
    else
      match parsers.lookup st with
      | none =>
        let (c2, restData) := parse_evidence parsers rest cache
        (c2, (st, []) :: restData)
      | some parser =>
        let (c1, evs) := parseFiles cache parser paths
        let (c2, restData) := parse_evidence parsers rest c1
        (c2, (st, evs) :: restData)

/-- The merged event set assembled by `_correlate_events` (lines 250-255):
every parsed event, tagged with its source type via
`event['source_type'] = source_type`, in source order. -/
def allEvents (parsedData : List (String × List Event)) : List Event :=
  parsedData.foldr
    (fun (st, events) acc =>
      events.map (fun e => { e with source_type := some st }) ++ acc) []

/-! ## Correlation engine -/

/-- A correlation group dict as built by the three correlators
(core/correlator.py lines 276-343).  `key` holds the `'window'` entry
(`str(window)`) for temporal groups and the `'entity'` entry for the other
kinds.  (The `time_window` helper column that the temporal correlator adds to
the shared DataFrame, and the `NaN` padding of the record dicts, are elided:
no claim observes them.) -/
structure Group where
  type_ : String
  key : String
  events : List Event
  count : Nat
  score : ℚ
deriving DecidableEq, Repr

/-- `pd.to_datetime(df['timestamp']).dt.floor('5min')` on one value:
truncation of the timestamp to its 5-minute (300 s) window start. -/
def floor5min (t : Nat) : Nat := t - t % 300

/-- The window key of one event: `NaT` (here `none`) when the timestamp is
absent, else its floored timestamp. -/
def windowOf (e : Event) : Option Nat := e.timestamp.map floor5min

/-- The events of the unified set falling in window `w` (in encounter
order, as `groupby` preserves intra-group order). -/
def winMembers (events : List Event) (w : Nat) : List Event :=
  events.filter (fun e => decide (windowOf e = some w))

/-- The distinct window keys, ascending — `df.groupby('time_window')`
iterates sorted group keys and drops the `NaT` key. -/
def temporalWindows (events : List Event) : List Nat :=
  List.insertionSort (· ≤ ·) (events.filterMap windowOf).dedup

/-- The groups emitted by `_find_temporal_correlations` (lines 276-296):
one per window with more than one event, scored `min(1, count/10)`. -/
def temporalGroups (events : List Event) : List Group :=
  (temporalWindows events).filterMap (fun w =>
    if 1 < (winMembers events w).length then
      some { type_ := "temporal", key := toString w, events := winMembers events w,
             count := (winMembers events w).length,
             score := min 1 (((winMembers events w).length : ℚ) / 10) }
    else none)

/-- `TacticalCorrelator._find_temporal_correlations` (lines 276-296): if no
event dict carries a `timestamp` key, the DataFrame has no such column and
`df['timestamp']` raises `KeyError`; otherwise the window groups are
emitted. -/
def find_temporal_correlations (events : List Event) : Except String (List Group) :=
  if events.any (fun e => e.timestamp.isSome) then .ok (temporalGroups events)
  else .error "KeyError: timestamp"

/-- Distinct non-null values of one entity column, ascending, as iterated by
`df.groupby(column)`. -/
def entityKeys (f : Event → Option String) (events : List Event) : List String :=
  List.insertionSort (· ≤ ·) (events.filterMap f).dedup

/-- The events of the unified set carrying value `k` in column `f`. -/
def entityMembers (f : Event → Option String) (events : List Event) (k : String) :
    List Event :=
  events.filter (fun e => decide (f e = some k))

/-- One `groupby`-and-filter pass shared by the entity and process
correlators (lines 298-343): one group per distinct value with more than one
member, scored `min(1, count/saturation)`. -/
def entityGroups (kind : String) (saturation : ℚ) (f : Event → Option String)
    (events : List Event) : List Group :=
  (entityKeys f events).filterMap (fun k =>
    if 1 < (entityMembers f events k).length then
      some { type_ := kind, key := k, events := entityMembers f events k,
             count := (entityMembers f events k).length,
             score := min 1 (((entityMembers f events k).length : ℚ) / saturation) }
    else none)

/-- `TacticalCorrelator._find_entity_correlations` (lines 298-326): group by
`username` (saturation 20) then by `hostname` (saturation 15); a missing
column raises `KeyError` at the corresponding `groupby`. -/
def find_entity_correlations (events : List Event) : Except String (List Group) :=
  if ¬ events.any (fun e => e.username.isSome) then .error "KeyError: username"
  else if ¬ events.any (fun e => e.hostname.isSome) then .error "KeyError: hostname"
  else .ok (entityGroups "user_activity" 20 (fun e => e.username) events ++
            entityGroups "host_activity" 15 (fun e => e.hostname) events)

/-- `TacticalCorrelator._find_process_correlations` (lines 328-343). -/
def find_process_correlations (events : List Event) : Except String (List Group) :=
  if ¬ events.any (fun e => e.process_name.isSome) then .error "KeyError: process_name"
  else .ok (entityGroups "process_activity" 25 (fun e => e.process_name) events)

/-- `TacticalCorrelator._correlate_events` (lines 246-274): tag events with
their source type, return no groups when the merged set is empty, otherwise
concatenate temporal, entity and process groups (any pandas `KeyError`
propagates). -/
def correlate_events (parsedData : List (String × List Event)) :
    Except String (List Group) :=
  let evs := allEvents parsedData
  if evs = [] then .ok []
  else do
    let t ← find_temporal_correlations evs
    let e ← find_entity_correlations evs
    let p ← find_process_correlations evs
    .ok (t ++ e ++ p)

/-! ## Scoring and ranking -/

/-- An entry of the high-priority output: the event copy annotated with
`priority_score` and `correlation_type` (lines 367-371). -/
structure PEvent where
  event : Event
  priority_score : ℚ
  correlation_type : String
deriving DecidableEq, Repr

/-- `final_score = min(1.0, base_score + ml_boost * 0.3)` (line 364), with
`boost` the anomaly score looked up for the group's identifier (0 when the
ML insights are absent or lack the identifier). -/
def final_score (boost : Group → ℚ) (g : Group) : ℚ :=
  min 1 (g.score + boost g * 0.3)

/-- The pre-sort contents of `high_priority` (lines 354-371): every member of
every group whose final score reaches the threshold, annotated with that
group's final score and kind, in group order. -/
def qualifying_events (correlations : List Group) (boost : Group → ℚ)
    (threshold : ℚ) : List PEvent :=
  correlations.foldr
    (fun g acc =>
      (if threshold ≤ final_score boost g then
        g.events.map (fun e => ⟨e, final_score boost g, g.type_⟩)
      else []) ++ acc) []

/-- The comparison used by `high_priority.sort(key=..., reverse=True)`
(line 374): `a` may precede `b` iff `a`'s priority score is at least `b`'s
(so equal-score entries keep their original order — Python's sort is
stable). -/
def descRel (a b : PEvent) : Prop := b.priority_score ≤ a.priority_score

instance : DecidableRel descRel := fun a b =>
  inferInstanceAs (Decidable (b.priority_score ≤ a.priority_score))

/-- `high_priority.sort(key=..., reverse=True)` (line 374): Python's stable
descending sort, which stable insertion sort with `descRel` computes. -/
def sortDesc (l : List PEvent) : List PEvent :=
  List.insertionSort descRel l

/-- `TacticalCorrelator._extract_high_priority_events` (lines 345-376). -/
def extract_high_priority_events (correlations : List Group)
    (boost : Group → ℚ) (threshold : ℚ) : List PEvent :=
  (sortDesc (qualifying_events correlations boost threshold)).take 100

/-! ## Pattern detection and confidence -/

/-- Substring test on character lists (Python's `in` on `str`). -/
def listContainsSub (needle : List Char) : List Char → Bool
  | [] => needle.isEmpty
  | c :: rest => needle.isPrefixOf (c :: rest) || listContainsSub needle rest

/-- `'failed' in str(e.get('description', '')).lower()` (line 385): an event
whose description is absent reads back as `NaN`/`''`, whose `str` contains no
`failed`. -/
def descContainsFailed (e : Event) : Bool :=
  match e.description with
  | some d => listContainsSub "failed".data (d.data.map Char.toLower)
  | none => false

/-- A group counted towards the brute-force heuristic (lines 383-386). -/
def bruteForceGroup (c : Group) : Bool :=
  decide (c.type_ = "user_activity") && c.events.any descContainsFailed

/-- `'inject' in str(c.get('entity', '')).lower()` (line 398). -/
def entityContainsInject (c : Group) : Bool :=
  listContainsSub "inject".data (c.key.data.map Char.toLower)

/-- `TacticalCorrelator._detect_attack_patterns` (lines 378-402). -/
def detect_attack_patterns (correlations : List Group) : List String :=
  (if 3 < (correlations.filter bruteForceGroup).length then
    ["brute_force_attempt"] else []) ++
  (if 5 < (correlations.filter (fun c => decide (c.type_ = "host_activity"))).length then
    ["potential_lateral_movement"] else []) ++
  (if (correlations.filter (fun c => decide (c.type_ = "process_activity"))).any
      entityContainsInject then
    ["process_injection"] else [])

/-- `TacticalCorrelator._calculate_confidence_score` (lines 404-433), with
`mlConfidence` the `'confidence'` entry of the ML insights when present. -/
def calculate_confidence_score (correlations : List Group)
    (mlConfidence : Option ℚ) : ℚ :=
  if correlations = [] then 0
  else
    min 1 (min 1 ((correlations.length : ℚ) / 50) * 0.4 +
           ((correlations.map (fun c => c.score)).sum / correlations.length) * 0.4 +
           mlConfidence.getD 0 * 0.2)

/-! ## The analysis run -/

/-- The `stats` dict assembled at lines 137-144 (the wall-clock `duration`
entry is elided). -/
structure Stats where
  total_events : Nat
  correlations : Nat
  anomalies : Nat
  sources_processed : List String
deriving DecidableEq, Repr

/-- The `CorrelationResult` fields produced on the modelled path (the
optional `timeline`/`graph_data`/`ml_insights` collaborators, which live in
modules outside the core, stay `None`; `timestamp` is wall-clock). -/
structure AnalysisOut where
  case_name : String
  high_priority_events : List PEvent
  correlations : List Group
  attack_patterns : List String
  confidence_score : ℚ
  stats : Stats
deriving DecidableEq, Repr

/-- `TacticalCorrelator.analyze_case` (core/correlator.py lines 67-171) with
`generate_timeline = build_graph = enable_ml = False` (so `ml_insights` is
`None`: all anomaly boosts are 0 and no ML confidence enters), and the final
`_save_results` file write elided.  The `try/except` at lines 169-171 logs
the exception and then re-raises it, so any error from the correlation stage
propagates to the caller unchanged. -/
def analyze_case (caseName : String) (parsers : List (String × Parser))
    (evidencePaths : List (String × List String)) (anomalyThreshold : ℚ)
    (cache : Cache) : Except String AnalysisOut :=
  let parsedData := (parse_evidence parsers evidencePaths cache).2
  match correlate_events parsedData with
  | .error e => .error e
  | .ok correlations =>
    let hp := extract_high_priority_events correlations (fun _ => 0) anomalyThreshold
    .ok { case_name := caseName
          high_priority_events := hp
          correlations := correlations
          attack_patterns := detect_attack_patterns correlations
          confidence_score := calculate_confidence_score correlations none
          stats := { total_events := (parsedData.map (fun p => p.2.length)).sum
                     correlations := correlations.length
                     anomalies := (hp.filter (fun e =>
                       decide (anomalyThreshold < e.priority_score))).length
                     sources_processed := evidencePaths.map (fun p => p.1) } }

/-! ## Concrete demonstration inputs used by witnesses and counterexamples -/

/-- A raw parser record with the given description and optional attributes
(the shape the EVTX parser emits after normalizing its base event). -/
def demoRaw (desc : String) (ts : Option Nat := none) (user : Option String := none)
    (host : Option String := none) (proc : Option String := none) : RawEvent :=
  { timestamp := ts.map RawTs.dt
    description := some (some desc)
    username := user.map some
    hostname := host.map some
    process_name := proc.map some }

/-! ## Shared demonstration events -/

/-- A benign normalized event (timestamp 10:00:00 as 36000 s, user alice). -/
def eLogin : Event := normalize_event (demoRaw "login ok" (some 36000) (some "alice"))

/-- A failed-logon normalized event (timestamp 10:01:00 as 36060 s). -/
def eFail : Event :=
  normalize_event (demoRaw "Failed logon attempt" (some 36060) (some "alice"))

/-- A normalized event at 10:06:00 (36360 s), outside the first window. -/
def eLate : Event := normalize_event (demoRaw "other activity" (some 36360))

/-- Two correlation groups, one temporal and one user-entity, sharing the
same two member events (as happens whenever correlated events fall in one
window and share a username). -/
def gDupTemporal : Group := ⟨"temporal", "36000", [eLogin, eFail], 2, 9/10⟩

/-- See `gDupTemporal`. -/
def gDupUser : Group := ⟨"user_activity", "alice", [eLogin, eFail], 2, 4/5⟩

/-- A raw record that a (faulty or repeat-emitting) adapter returns twice. -/
def rDup : RawEvent := demoRaw "duplicate record" (some 36000) (some "alice")

/-- A parser adapter returning the same raw record twice. -/
def pDup : Parser := ⟨fun _ => .ok [rDup, rDup]⟩

/-- An adapter that succeeds on two of three files and raises (simulating a
timeout) on `"bad.evtx"`. -/
def pPartial : Parser :=
  ⟨fun path =>
    if path = "ok1.evtx" then .ok [demoRaw "one"]
    else if path = "bad.evtx" then .error "TimeoutError"
    else .ok [demoRaw "three"]⟩

/-- Like `pPartial` but parsing `"bad.evtx"` to an empty record list instead
of raising. -/
def pEmptyB : Parser :=
  ⟨fun path =>
    if path = "ok1.evtx" then .ok [demoRaw "one"]
    else if path = "bad.evtx" then .ok []
    else .ok [demoRaw "three"]⟩

/-- An adapter standing for the first evidence category's parser. -/
def pAdapterA : Parser := ⟨fun _ => .ok [demoRaw "A record"]⟩

/-- A different adapter (different category) returning different records. -/
def pAdapterB : Parser := ⟨fun _ => .ok [demoRaw "B record"]⟩

/-- An adapter returning one record that carries only a description (no
timestamp, no entities). -/
def pDescOnly : Parser := ⟨fun _ => .ok [demoRaw "only a description"]⟩

/-- An adapter returning two fully-attributed records. -/
def pFull : Parser :=
  ⟨fun _ => .ok [demoRaw "full one" (some 36000) (some "alice") (some "host1")
                   (some "proc.exe"),
                 demoRaw "full two" (some 36060) (some "alice") (some "host1")
                   (some "proc.exe")]⟩

/-- A username-entity group holding one member whose description is
`"Failed logon attempt"`. -/
def bfDemoGroup (k : String) : Group := ⟨"user_activity", k, [eFail], 1, 1/10⟩

/-- A single correlation group carrying score `0.5`. -/
def gConfDemo : Group := ⟨"temporal", "36000", [eLogin, eFail], 2, 1/2⟩

/-- An event whose raw record had no parseable timestamp. -/
def eNoTs : Event := normalize_event (demoRaw "no time here")

/-- The three events of the spec's temporal example: 10:00:00, 10:01:00 and
10:06:00 with a 5-minute window. -/
def demoTemporalEvents : List Event := [eLogin, eFail, eLate]

/-- What C5 asserts of the temporal correlator, for one event set: it
returns (without raising), emits exactly one group per 5-minute window
holding more than one event — the group listing exactly the events whose
truncated timestamp is that window, scored `min(1, count/10)` — and every
emitted group consists of at least two events all carrying a (non-nil)
timestamp. -/
def temporalSpec (events : List Event) : Prop :=
  find_temporal_correlations events = .ok (temporalGroups events) ∧
  (∀ w : Nat, 1 < (winMembers events w).length ↔
    ∃ g ∈ temporalGroups events, g.key = toString w ∧
      g.events = winMembers events w ∧
      g.score = min 1 (((winMembers events w).length : ℚ) / 10) ∧
      g.type_ = "temporal") ∧
  (∀ g ∈ temporalGroups events, g.type_ = "temporal" ∧ 1 < g.events.length ∧
    g.count = g.events.length ∧ g.score = min 1 ((g.events.length : ℚ) / 10) ∧
    (∀ e ∈ g.events, e.timestamp.isSome) ∧ ∃ w : Nat, g.events = winMembers events w)

/-! ## Helper lemmas about the stable descending sort -/

theorem qualifying_events_nil (boost : Group → ℚ) (t : ℚ) :
    qualifying_events [] boost t = [] := rfl

theorem qualifying_events_cons (g : Group) (gs : List Group) (boost : Group → ℚ)
    (t : ℚ) :
    qualifying_events (g :: gs) boost t =
      (if t ≤ final_score boost g then
        g.events.map (fun e => ⟨e, final_score boost g, g.type_⟩)
      else []) ++ qualifying_events gs boost t := rfl

theorem mem_sortDesc {x : PEvent} {l : List PEvent} : x ∈ sortDesc l ↔ x ∈ l :=
  (List.perm_insertionSort descRel l).mem_iff

theorem orderedInsert_append_high (t : ℚ) (x : PEvent) (A B : List PEvent)
    (hx : t ≤ x.priority_score) (hB : ∀ b ∈ B, b.priority_score < t) :
    List.orderedInsert descRel x (A ++ B) = List.orderedInsert descRel x A ++ B := by
  induction A with
  | nil =>
    cases B with
    | nil => rfl
    | cons b bs =>
      have hb : descRel x b := le_of_lt (lt_of_lt_of_le (hB b (by simp)) hx)
      simp [List.orderedInsert, hb]
  | cons a as ih =>
    by_cases ha : descRel x a
    · simp [List.orderedInsert, ha]
    · simp [List.orderedInsert, ha, ih]

theorem orderedInsert_append_low (t : ℚ) (x : PEvent) (A B : List PEvent)
    (hx : x.priority_score < t) (hA : ∀ a ∈ A, t ≤ a.priority_score) :
    List.orderedInsert descRel x (A ++ B) = A ++ List.orderedInsert descRel x B := by
  induction A with
  | nil => rfl
  | cons a as ih =>
    have ha : ¬ descRel x a := by
      have := hA a (by simp)
      simp only [descRel, not_le]
      exact lt_of_lt_of_le hx this
    simp only [List.cons_append, List.orderedInsert, if_neg ha]
    exact congrArg (a :: ·) (ih (fun a h => hA a (by simp [h])))

theorem sortDesc_split (t : ℚ) (l : List PEvent) :
    sortDesc l =
      sortDesc (l.filter fun p => decide (t ≤ p.priority_score)) ++
      sortDesc (l.filter fun p => ! decide (t ≤ p.priority_score)) := by
  induction l with
  | nil => rfl
  | cons x l ih =>
    by_cases hx : t ≤ x.priority_score
    · have hfhi : (x :: l).filter (fun p => decide (t ≤ p.priority_score)) =
          x :: l.filter (fun p => decide (t ≤ p.priority_score)) := by
        simp [List.filter_cons, hx]
      have hflo : (x :: l).filter (fun p => ! decide (t ≤ p.priority_score)) =
          l.filter (fun p => ! decide (t ≤ p.priority_score)) := by
        simp [List.filter_cons, hx]
      rw [hfhi, hflo]
      show List.orderedInsert descRel x (sortDesc l) = _
      rw [ih]
      show _ = List.orderedInsert descRel x (sortDesc _) ++ sortDesc _
      apply orderedInsert_append_high t x _ _ hx
      intro b hb
      have := (mem_sortDesc.mp hb)
      have := List.mem_filter.mp this
      simpa using this.2
    · have hfhi : (x :: l).filter (fun p => decide (t ≤ p.priority_score)) =
          l.filter (fun p => decide (t ≤ p.priority_score)) := by
        simp [List.filter_cons, hx]
      have hflo : (x :: l).filter (fun p => ! decide (t ≤ p.priority_score)) =
          x :: l.filter (fun p => ! decide (t ≤ p.priority_score)) := by
        simp [List.filter_cons, hx]
      rw [hfhi, hflo]
      show List.orderedInsert descRel x (sortDesc l) = _
      rw [ih]
      show _ = sortDesc _ ++ List.orderedInsert descRel x (sortDesc _)
      apply orderedInsert_append_low t x _ _ (not_le.mp hx)
      intro a ha
      have := (mem_sortDesc.mp ha)
      have := List.mem_filter.mp this
      simpa using this.2

theorem qualifying_filter (gs : List Group) (boost : Group → ℚ) (t1 t2 : ℚ)
    (h : t1 ≤ t2) :
    (qualifying_events gs boost t1).filter (fun p => decide (t2 ≤ p.priority_score)) =
      qualifying_events gs boost t2 := by
  induction gs with
  | nil => rfl
  | cons g gs ih =>
    rw [qualifying_events_cons, qualifying_events_cons, List.filter_append, ih]
    congr 1
    by_cases h2 : t2 ≤ final_score boost g
    · rw [if_pos h2, if_pos (le_trans h h2)]
      apply List.filter_eq_self.mpr
      intro p hp
      rcases List.mem_map.mp hp with ⟨e, _, rfl⟩
      simpa using h2
    · rw [if_neg h2]
      by_cases h1 : t1 ≤ final_score boost g
      · rw [if_pos h1]
        apply List.filter_eq_nil_iff.mpr
        intro p hp
        rcases List.mem_map.mp hp with ⟨e, _, rfl⟩
        simpa using h2
      · rw [if_neg h1]
        rfl

theorem mem_of_mem_take_append {α : Type} (x : α) (n : Nat) (l r : List α)
    (h : x ∈ l.take n) : x ∈ (l ++ r).take n := by
  rw [List.take_append_eq_append_take]
  exact List.mem_append_left _ h

/-! ## C6 — monotonicity of the priority threshold filter -/

/-- C6: for a fixed set of correlation groups and a fixed anomaly-score map,
raising the threshold can only shrink the priority-event output: every entry
produced with threshold `t2` is also produced with any threshold `t1 < t2`,
the top-100 truncation included.  (Both runs qualify exactly the same
groups with final score `≥ t2`; those entries carry scores `≥ t2` while the
extra `t1`-entries score `< t2`, so the stable descending sort places the
common entries first, in identical order, and truncation preserves them.) -/
theorem priority_threshold_monotone (gs : List Group) (boost : Group → ℚ)
    (t1 t2 : ℚ) (h : t1 < t2) :
    ∀ p ∈ extract_high_priority_events gs boost t2,
      p ∈ extract_high_priority_events gs boost t1 := by
  intro p hp
  unfold extract_high_priority_events at hp ⊢
  rw [← qualifying_filter gs boost t1 t2 h.le] at hp
  rw [sortDesc_split t2 (qualifying_events gs boost t1)]
  exact mem_of_mem_take_append _ _ _ _ hp

/-- Witness for C6 at a concrete input: the group scoring `9/10` qualifies
at both thresholds `4/5` and `1/2`, and its entries survive in both
outputs. -/
theorem priority_threshold_monotone_witness :
    ((1 : ℚ)/2 < 4/5) ∧
      (⟨eLogin, 9/10, "temporal"⟩ : PEvent) ∈
        extract_high_priority_events [gDupTemporal] (fun _ => 0) (4/5) ∧
      (⟨eLogin, 9/10, "temporal"⟩ : PEvent) ∈
        extract_high_priority_events [gDupTemporal] (fun _ => 0) (1/2) :=
  ⟨by norm_num, by decide,
    priority_threshold_monotone [gDupTemporal] (fun _ => 0) (1/2) (4/5)
      (by norm_num) _ (by decide)⟩

/-! ## C3 — no dedupe-by-contentHash in the priority output -/

/-- C3 counterexample: the same event qualifies via two groups (one temporal
at final score `9/10`, one user-entity at `4/5`, both above the threshold
`1/2`) and the priority output contains **two** occurrences of it — the code
never dedupes by `contentHash`, contradicting the claim that only the
highest-score occurrence is retained. -/
theorem priority_dedupe_counterexample :
    (extract_high_priority_events [gDupTemporal, gDupUser] (fun _ => 0)
        (1/2)).countP (fun p => decide (p.event.hash = eLogin.hash)) = 2 := by
  decide

/-- C3 amended: an event qualifying via several groups appears once per
qualifying occurrence — the (pre-truncation) priority list contains, for
each group whose final score reaches the threshold, one entry per
occurrence of the event among that group's members, each annotated with that
group's final score; no dedupe by `contentHash` takes place. -/
theorem priority_occurrences_per_group (gs : List Group) (boost : Group → ℚ)
    (t : ℚ) (e : Event) :
    (sortDesc (qualifying_events gs boost t)).countP (fun p => decide (p.event = e)) =
      (gs.map (fun g =>
        if t ≤ final_score boost g then
          g.events.countP (fun x => decide (x = e))
        else 0)).sum := by
  unfold sortDesc
  rw [List.Perm.countP_eq _ (List.perm_insertionSort descRel _)]
  induction gs with
  | nil => rfl
  | cons g gs ih =>
    rw [qualifying_events_cons, List.countP_append, ih, List.map_cons, List.sum_cons]
    congr 1
    by_cases h : t ≤ final_score boost g
    · rw [if_pos h, if_pos h, List.countP_map]
      rfl
    · rw [if_neg h, if_neg h]
      rfl

/-! ## C8 — the brute-force pattern heuristic -/

/-- C8: the `brute_force_attempt` pattern fires iff strictly more than 3
username-entity groups each contain a member whose description
case-insensitively contains `"failed"`; in particular 4 such groups fire it
and 3 do not. -/
theorem brute_force_fires_iff :
    (∀ cs : List Group, "brute_force_attempt" ∈ detect_attack_patterns cs ↔
      3 < (cs.filter bruteForceGroup).length) ∧
    "brute_force_attempt" ∈ detect_attack_patterns
      [bfDemoGroup "u1", bfDemoGroup "u2", bfDemoGroup "u3", bfDemoGroup "u4"] ∧
    "brute_force_attempt" ∉ detect_attack_patterns
      [bfDemoGroup "u1", bfDemoGroup "u2", bfDemoGroup "u3"] := by
  refine ⟨?_, by decide, by decide⟩
  intro cs
  unfold detect_attack_patterns
  by_cases h1 : 3 < (cs.filter bruteForceGroup).length <;>
    by_cases h2 : 5 < (cs.filter (fun c => decide (c.type_ = "host_activity"))).length <;>
    by_cases h3 : (cs.filter (fun c => decide (c.type_ = "process_activity"))).any
        entityContainsInject <;>
    simp [h1, h2, h3]

/-! ## C7 — the run confidence score -/

/-- C7: under the documented ranges (every group score in `[0,1]`, the
optional external confidence in `[0,1]`), the run confidence score equals
`0.4 * min(1, groupCount/50) + 0.4 * mean(group.score) + 0.2 *
externalConfidence` clamped to `[0,1]`, it is `0` exactly on an empty group
set (the `if` branch), and it always lies in `[0,1]`. -/
theorem confidence_formula (groups : List Group) (mlc : Option ℚ)
    (hscore : ∀ g ∈ groups, 0 ≤ g.score ∧ g.score ≤ 1)
    (hml : ∀ c, mlc = some c → 0 ≤ c ∧ c ≤ 1) :
    calculate_confidence_score groups mlc =
      (if groups = [] then 0 else
        max 0 (min 1 (min 1 ((groups.length : ℚ) / 50) * 0.4 +
          ((groups.map (fun c => c.score)).sum / groups.length) * 0.4 +
          (mlc.getD 0) * 0.2))) ∧
    0 ≤ calculate_confidence_score groups mlc ∧
    calculate_confidence_score groups mlc ≤ 1 := by
  by_cases hg : groups = []
  · subst hg
    simp [calculate_confidence_score]
  · have hlen : (0:ℚ) < groups.length := by
      have := List.length_pos.mpr hg
      exact_mod_cast this
    have hsum : 0 ≤ (groups.map (fun c => c.score)).sum := by
      apply List.sum_nonneg
      intro x hx
      rcases List.mem_map.mp hx with ⟨g, hgmem, rfl⟩
      exact (hscore g hgmem).1
    have hml0 : 0 ≤ mlc.getD 0 := by
      cases mlc with
      | none => simp
      | some c => simpa using (hml c rfl).1
    have hmin : (0:ℚ) ≤ min 1 ((groups.length : ℚ) / 50) :=
      le_min (by norm_num) (by positivity)
    have hF : 0 ≤ min 1 ((groups.length : ℚ) / 50) * 0.4 +
        ((groups.map (fun c => c.score)).sum / groups.length) * 0.4 +
        (mlc.getD 0) * 0.2 := by
      have hd : (0:ℚ) ≤ (groups.map (fun c => c.score)).sum / groups.length :=
        div_nonneg hsum hlen.le
      have h1 := mul_nonneg hmin (by norm_num : (0:ℚ) ≤ 0.4)
      have h2 := mul_nonneg hd (by norm_num : (0:ℚ) ≤ 0.4)
      have h3 := mul_nonneg hml0 (by norm_num : (0:ℚ) ≤ 0.2)
      linarith
    have hcode : calculate_confidence_score groups mlc =
        min 1 (min 1 ((groups.length : ℚ) / 50) * 0.4 +
          ((groups.map (fun c => c.score)).sum / groups.length) * 0.4 +
          (mlc.getD 0) * 0.2) := by
      unfold calculate_confidence_score
      rw [if_neg hg]
    refine ⟨?_, ?_, ?_⟩
    · rw [hcode, if_neg hg, max_eq_right (le_min (by norm_num) hF)]
    · rw [hcode]
      exact le_min (by norm_num) hF
    · rw [hcode]
      exact min_le_left _ _

/-- Witness for C7: a single group with score `0.5` and no external input
satisfies the range hypotheses and yields confidence exactly
`0.208 = 26/125` (`0.4 * 1/50 + 0.4 * 0.5`), and the empty set yields
exactly `0`. -/
theorem confidence_formula_witness :
    (∀ g ∈ [gConfDemo], 0 ≤ g.score ∧ g.score ≤ 1) ∧
    calculate_confidence_score [gConfDemo] none = 26/125 ∧
    calculate_confidence_score [] none = 0 := by
  have h := confidence_formula [gConfDemo] none (by decide) (fun c hc => nomatch hc)
  refine ⟨by decide, ?_, by decide⟩
  rw [h.1]
  decide

/-! ## C5 — the temporal correlator -/

/-- C5 counterexample: on a non-empty event set in which **no** event has a
timestamp, the claim requires the correlator to exclude the nil-timestamp
events and emit no group; instead `df['timestamp']` raises a `KeyError`
(the column does not exist), so the correlator raises rather than
returning. -/
theorem temporal_nil_counterexample :
    find_temporal_correlations [eNoTs] = .error "KeyError: timestamp" := by rfl

/-- C5 amended: **provided at least one event carries a timestamp** (so the
DataFrame has a `timestamp` column and no `KeyError` is raised), the
temporal correlator behaves exactly as claimed: nil-timestamp events are
excluded, one group per 5-minute truncation window with at least 2 events is
emitted, and each group scores `min(1, memberCount/10)`. -/
theorem temporal_correlator_spec (events : List Event)
    (h : events.any (fun e => e.timestamp.isSome) = true) :
    temporalSpec events := by
  unfold temporalSpec
  refine ⟨?_, ?_, ?_⟩
  · unfold find_temporal_correlations
    rw [if_pos h]
  · intro w
    constructor
    · intro hlen
      have hne : winMembers events w ≠ [] := by
        intro hnil
        rw [hnil] at hlen
        simp at hlen
      rcases List.exists_mem_of_ne_nil _ hne with ⟨e, he⟩
      have he2 := List.mem_filter.mp he
      have hwin : windowOf e = some w := by simpa using he2.2
      have hwmem : w ∈ temporalWindows events := by
        unfold temporalWindows
        rw [(List.perm_insertionSort _ _).mem_iff, List.mem_dedup]
        exact List.mem_filterMap.mpr ⟨e, he2.1, hwin⟩
      refine ⟨{ type_ := "temporal", key := toString w, events := winMembers events w,
                count := (winMembers events w).length,
                score := min 1 (((winMembers events w).length : ℚ) / 10) },
              ?_, rfl, rfl, rfl, rfl⟩
      unfold temporalGroups
      exact List.mem_filterMap.mpr ⟨w, hwmem, by rw [if_pos hlen]⟩
    · rintro ⟨g, hg, hkey, hevents, hscore, htype⟩
      unfold temporalGroups at hg
      rcases List.mem_filterMap.mp hg with ⟨w2, hw2, hif⟩
      by_cases hc : 1 < (winMembers events w2).length
      · rw [if_pos hc] at hif
        injection hif with hifg
        have hge : g.events = winMembers events w2 := by rw [← hifg]
        rw [hevents] at hge
        rw [hge]
        exact hc
      · rw [if_neg hc] at hif
        exact absurd hif (by simp)
  · intro g hg
    unfold temporalGroups at hg
    rcases List.mem_filterMap.mp hg with ⟨w, hw, hif⟩
    by_cases hc : 1 < (winMembers events w).length
    · rw [if_pos hc] at hif
      injection hif with hifg
      subst hifg
      refine ⟨rfl, hc, rfl, rfl, ?_, ⟨w, rfl⟩⟩
      intro e he
      have hwin : windowOf e = some w := by
        simpa using (List.mem_filter.mp he).2
      unfold windowOf at hwin
      cases hts : e.timestamp with
      | none => rw [hts] at hwin; simp at hwin
      | some t => simp
    · rw [if_neg hc] at hif
      exact absurd hif (by simp)

/-- Witness for C5 on the spec's own example: events at 10:00:00 (36000 s),
10:01:00 (36060 s) and 10:06:00 (36360 s) — the first two share window
36000 (group of 2, score `0.2`), the third sits alone in window 36300 and is
dropped. -/
theorem temporal_correlator_spec_witness :
    (demoTemporalEvents.any (fun e => e.timestamp.isSome) = true) ∧
    temporalSpec demoTemporalEvents ∧
    temporalGroups demoTemporalEvents =
      [{ type_ := "temporal", key := "36000", events := [eLogin, eFail],
         count := 2, score := 1/5 }] :=
  ⟨by decide, temporal_correlator_spec _ (by decide), by decide⟩

/-! ## C1 — no dedup by contentHash in the unified event set -/

/-- C1 counterexample: normalizing the same raw record twice yields two
events with **equal** `contentHash`, and both stay in the unified event set
produced by ingestion — nothing in `_parse_evidence`/`_correlate_events`
deduplicates by `contentHash`, so they do not collapse to one entry. -/
theorem contentHash_dedup_counterexample :
    (allEvents (parse_evidence [("evtx", pDup)]
        [("evtx", ["f.evtx"])] []).2).countP
      (fun e => decide (e.hash = hash_event rDup)) = 2 := by
  decide

/-- C1 amended: the unified event set keeps **every** normalized event, one
per raw record and in record order — equal-`contentHash` duplicates are
retained, not collapsed (no dedup exists in the pipeline). -/
theorem parse_keeps_every_record (cache : Cache) (p : Parser) (path : String)
    (raws : List RawEvent)
    (hmiss : cache.lookup (cacheKey path) = none)
    (hok : p.parse path = .ok raws) :
    (parse_single_file cache p path).2 = raws.map normalize_event ∧
    ((parse_single_file cache p path).2).length = raws.length := by
  refine ⟨?_, ?_⟩ <;> simp [parse_single_file, hmiss, hok]

/-- Witness for C1's amended statement: the duplicate-emitting adapter on a
fresh cache yields both normalized copies. -/
theorem parse_keeps_every_record_witness :
    (([] : Cache).lookup (cacheKey "f.evtx") = none) ∧
    (pDup.parse "f.evtx" = .ok [rDup, rDup]) ∧
    ((parse_single_file [] pDup "f.evtx").2 = [rDup, rDup].map normalize_event ∧
      ((parse_single_file [] pDup "f.evtx").2).length = 2) :=
  ⟨rfl, rfl, parse_keeps_every_record [] pDup "f.evtx" [rDup, rDup] rfl rfl⟩

/-! ## C2 — partial failure and the (non-existent) returned error list -/

/-- C2 counterexample: with one of three files failing (simulated timeout),
the value the ingestion returns is **identical** to the one returned when
that file merely parses to zero events — the other two files' events are
there, but no error entry of any kind for the failing path exists anywhere
in the returned structure (the exception is caught at
`_parse_single_file` lines 224-226 and only logged), so the error list
cannot contain "exactly one entry for each failing path". -/
theorem error_list_counterexample :
    (parse_evidence [("evtx", pPartial)]
        [("evtx", ["ok1.evtx", "bad.evtx", "ok3.evtx"])] []).2 =
      (parse_evidence [("evtx", pEmptyB)]
        [("evtx", ["ok1.evtx", "bad.evtx", "ok3.evtx"])] []).2 ∧
    (parse_evidence [("evtx", pPartial)]
        [("evtx", ["ok1.evtx", "bad.evtx", "ok3.evtx"])] []).2 =
      [("evtx", [normalize_event (demoRaw "one"),
                 normalize_event (demoRaw "three")])] := by
  constructor <;> decide

/-- C2 amended: when one of three files in a batch fails adapter invocation,
the run still returns the Events from the other two files; the failing path
contributes an empty event list and **no error entry** — the returned
mapping holds only events, errors being logged and discarded. -/
theorem partial_failure_keeps_others (p : Parser) (f1 f2 f3 : String)
    (r1 r3 : List RawEvent) (msg : String)
    (h1 : p.parse f1 = .ok r1) (h2 : p.parse f2 = .error msg)
    (h3 : p.parse f3 = .ok r3)
    (h21 : f2 ≠ f1) (h31 : f3 ≠ f1) :
    (parse_evidence [("evtx", p)] [("evtx", [f1, f2, f3])] []).2 =
      [("evtx", r1.map normalize_event ++ r3.map normalize_event)] := by
  have e21 : (f2 == f1) = false := beq_eq_false_iff_ne.mpr h21
  have e31 : (f3 == f1) = false := beq_eq_false_iff_ne.mpr h31
  simp [parse_evidence, parseFiles, parse_single_file, cacheKey, List.lookup,
    h1, h2, h3, e21, e31]

/-- Witness for C2's amended statement on the concrete three-file batch. -/
theorem partial_failure_keeps_others_witness :
    (pPartial.parse "ok1.evtx" = .ok [demoRaw "one"]) ∧
    (pPartial.parse "bad.evtx" = .error "TimeoutError") ∧
    (pPartial.parse "ok3.evtx" = .ok [demoRaw "three"]) ∧
    ("bad.evtx" ≠ "ok1.evtx") ∧ ("ok3.evtx" ≠ "ok1.evtx") ∧
    (parse_evidence [("evtx", pPartial)]
        [("evtx", ["ok1.evtx", "bad.evtx", "ok3.evtx"])] []).2 =
      [("evtx", [demoRaw "one"].map normalize_event ++
                [demoRaw "three"].map normalize_event)] :=
  ⟨rfl, rfl, rfl, by decide, by decide,
    partial_failure_keeps_others pPartial "ok1.evtx" "bad.evtx" "ok3.evtx"
      [demoRaw "one"] [demoRaw "three"] "TimeoutError" rfl rfl rfl
      (by decide) (by decide)⟩

/-! ## C9 — the evidence cache key ignores the adapter -/

/-- C9 counterexample: the cache key `f"{file_path}_{hash(file_path)}"`
depends on the path alone, so a parse task for the same path under a
**different** adapter hits the first adapter's entry: adapter B's task
returns A's normalized records (and B is never invoked).  The claim that
tasks for the same path under two different adapters never share a cache
entry is false. -/
theorem cache_key_ignores_adapter_counterexample :
    (parse_single_file (parse_single_file [] pAdapterA "shared.evtx").1
        pAdapterB "shared.evtx").2 =
      [normalize_event (demoRaw "A record")] ∧
    [normalize_event (demoRaw "A record")] ≠
      [normalize_event (demoRaw "B record")] := by
  constructor <;> decide

/-- C9 amended: the cache is keyed by file path alone; a parse task whose
path is cached returns the cached Events without invoking its adapter — in
particular the result is the same under **any** adapter. -/
theorem cache_hit_returns_cached (cache : Cache) (p q : Parser) (path : String)
    (evs : List Event) (h : cache.lookup (cacheKey path) = some evs) :
    parse_single_file cache p path = (cache, evs) ∧
    parse_single_file cache p path = parse_single_file cache q path := by
  constructor <;> simp [parse_single_file, h]

/-- Witness for C9's amended statement: a cache already holding
`"seen.evtx"` answers both adapters with the cached events. -/
theorem cache_hit_returns_cached_witness :
    (([(cacheKey "seen.evtx", [eLogin])] : Cache).lookup (cacheKey "seen.evtx") =
      some [eLogin]) ∧
    (parse_single_file [(cacheKey "seen.evtx", [eLogin])] pAdapterA "seen.evtx" =
        ([(cacheKey "seen.evtx", [eLogin])], [eLogin]) ∧
      parse_single_file [(cacheKey "seen.evtx", [eLogin])] pAdapterA "seen.evtx" =
        parse_single_file [(cacheKey "seen.evtx", [eLogin])] pAdapterB "seen.evtx") :=
  ⟨rfl, cache_hit_returns_cached [(cacheKey "seen.evtx", [eLogin])]
    pAdapterA pAdapterB "seen.evtx" [eLogin] rfl⟩

/-! ## C10 — which fields of a normalized Event are present -/

/-- C10 counterexample: a raw record that explicitly binds `source` (resp.
`description`) to `None` normalizes to an Event **without** that key — the
`.get(key, default)` default applies only when the key is absent, and the
final comprehension strips the `None` — so `source` and `description` are
not always present, contrary to the claim. -/
theorem normalizer_presence_counterexample :
    (normalize_event { source := some none }).source = none ∧
    (normalize_event { description := some none }).description = none := by
  constructor <;> rfl

/-- C10 amended: a normalized Event never carries a `None`-valued key: each
of the six optional fields is present exactly when determinable (`timestamp`
exactly when `normalize_timestamp` succeeds; `event_id`, `hostname`,
`username`, `process_name`, `ip_address` exactly when the raw record binds
them to a value); `raw_data` and the content hash are always present; and
`source`/`description` are present **unless the raw record explicitly binds
them to `None`** (an absent key falls back to `'unknown'` / `''`). -/
theorem normalize_event_field_presence (e : RawEvent) :
    (normalize_event e).raw_data = e ∧
    (normalize_event e).hash = hash_event e ∧
    (normalize_event e).timestamp = normalize_timestamp e.timestamp ∧
    ((normalize_event e).source = none ↔ e.source = some none) ∧
    (e.source = none ↔ (normalize_event e).source = some "unknown" ∧ e.source = none) ∧
    ((normalize_event e).description = none ↔ e.description = some none) ∧
    ((normalize_event e).event_id = none ↔ pyGet e.event_id = none) ∧
    ((normalize_event e).hostname = none ↔ pyGet e.hostname = none) ∧
    ((normalize_event e).username = none ↔ pyGet e.username = none) ∧
    ((normalize_event e).process_name = none ↔ pyGet e.process_name = none) ∧
    ((normalize_event e).ip_address = none ↔ pyGet e.ip_address = none) := by
  refine ⟨rfl, rfl, rfl, ?_, ?_, ?_, Iff.rfl, Iff.rfl, Iff.rfl, Iff.rfl, Iff.rfl⟩
  · cases hsrc : e.source with
    | none => simp [normalize_event, pyGetD, hsrc]
    | some w => cases w <;> simp [normalize_event, pyGetD, hsrc]
  · cases hsrc : e.source with
    | none => simp [normalize_event, pyGetD, hsrc]
    | some w => cases w <;> simp [normalize_event, pyGetD, hsrc]
  · cases hdesc : e.description with
    | none => simp [normalize_event, pyGetD, hdesc]
    | some w => cases w <;> simp [normalize_event, pyGetD, hdesc]

/-! ## C4 — what the analysis run returns to the caller -/

/-- C4 counterexample: a run over a file that parses fine but whose events
all lack a timestamp **raises** — `df['timestamp']` raises `KeyError`
inside `_correlate_events`, and `analyze_case`'s `except` block (lines
169-171) logs it and re-raises.  The caller receives neither an
`AnalysisResult` nor any `ConfigurationError` (no such type exists in the
code); no file failed to parse. -/
theorem analyze_case_raises_counterexample :
    analyze_case "case" [("evtx", pDescOnly)] [("evtx", ["events.evtx"])]
        (7/10) [] = .error "KeyError: timestamp" := by
  rfl

/-- C4 amended, first half: `correlate_events` returns (rather than raising)
exactly when the merged set is empty or every grouping column exists — some
event has a timestamp, some a username, some a hostname and some a process
name. -/
theorem correlate_events_ok (pd : List (String × List Event))
    (h : allEvents pd = [] ∨
      ((allEvents pd).any (fun e => e.timestamp.isSome) = true ∧
       (allEvents pd).any (fun e => e.username.isSome) = true ∧
       (allEvents pd).any (fun e => e.hostname.isSome) = true ∧
       (allEvents pd).any (fun e => e.process_name.isSome) = true)) :
    ∃ gs, correlate_events pd = .ok gs := by
  unfold correlate_events
  rcases h with hempty | ⟨hts, hun, hhn, hpn⟩
  · rw [if_pos hempty]
    exact ⟨[], rfl⟩
  · have hne : allEvents pd ≠ [] := by
      intro hnil
      rw [hnil] at hts
      simp at hts
    rw [if_neg hne]
    have ht : find_temporal_correlations (allEvents pd) =
        .ok (temporalGroups (allEvents pd)) := by
      unfold find_temporal_correlations
      rw [if_pos hts]
    have he : find_entity_correlations (allEvents pd) =
        .ok (entityGroups "user_activity" 20 (fun e => e.username) (allEvents pd) ++
             entityGroups "host_activity" 15 (fun e => e.hostname) (allEvents pd)) := by
      unfold find_entity_correlations
      rw [if_neg (not_not_intro hun), if_neg (not_not_intro hhn)]
    have hp : find_process_correlations (allEvents pd) =
        .ok (entityGroups "process_activity" 25 (fun e => e.process_name)
          (allEvents pd)) := by
      unfold find_process_correlations
      rw [if_neg (not_not_intro hpn)]
    rw [ht, he, hp]
    exact ⟨_, rfl⟩

/-- C4 amended, second half: per-file parse failures never abort the run —
on the modelled path (optional collaborators disabled) the run returns a
complete result whenever the merged event set is empty or the four grouping
columns exist; it raises (re-raised `KeyError`) otherwise, and no
`ConfigurationError` notion exists. -/
theorem analyze_case_total_on_columns (caseName : String)
    (parsers : List (String × Parser)) (eps : List (String × List String))
    (th : ℚ) (cache : Cache)
    (h : allEvents (parse_evidence parsers eps cache).2 = [] ∨
      ((allEvents (parse_evidence parsers eps cache).2).any
          (fun e => e.timestamp.isSome) = true ∧
       (allEvents (parse_evidence parsers eps cache).2).any
          (fun e => e.username.isSome) = true ∧
       (allEvents (parse_evidence parsers eps cache).2).any
          (fun e => e.hostname.isSome) = true ∧
       (allEvents (parse_evidence parsers eps cache).2).any
          (fun e => e.process_name.isSome) = true)) :
    (analyze_case caseName parsers eps th cache).isOk = true := by
  obtain ⟨gs, hgs⟩ := correlate_events_ok _ h
  unfold analyze_case
  simp only [hgs]
  rfl

/-- Witness for C4's amended statement: a run over two fully-attributed
events satisfies the column condition and returns a complete result; a run
over an empty batch returns as well. -/
theorem analyze_case_total_on_columns_witness :
    ((allEvents (parse_evidence [("evtx", pFull)] [("evtx", ["full.evtx"])]
        []).2) = [] ∨
      ((allEvents (parse_evidence [("evtx", pFull)] [("evtx", ["full.evtx"])]
          []).2).any (fun e => e.timestamp.isSome) = true ∧
       (allEvents (parse_evidence [("evtx", pFull)] [("evtx", ["full.evtx"])]
          []).2).any (fun e => e.username.isSome) = true ∧
       (allEvents (parse_evidence [("evtx", pFull)] [("evtx", ["full.evtx"])]
          []).2).any (fun e => e.hostname.isSome) = true ∧
       (allEvents (parse_evidence [("evtx", pFull)] [("evtx", ["full.evtx"])]
          []).2).any (fun e => e.process_name.isSome) = true)) ∧
    (analyze_case "demo" [("evtx", pFull)] [("evtx", ["full.evtx"])] (7/10)
        []).isOk = true :=
  ⟨by decide,
    analyze_case_total_on_columns "demo" [("evtx", pFull)]
      [("evtx", ["full.evtx"])] (7/10) [] (by decide)⟩

end TacticalCorrelator
